import Mathlib

/-!
Verification development for the boll_price repository.

The embedding below translates the Python sources into Lean:
  * `src/trading_strategy.py` — the trading engine (states, `execute_trade`,
    `process_trading_logic`, `check_startup_position`, `calculate_safe_position_size`);
  * `src/binance_client.py` — `calculate_boll`, `get_klines_with_boll`,
    the set of methods the class defines;
  * `src/database.py` — the `klines` table with its
    `UNIQUE(symbol, interval_type, open_time)` constraint, `save_klines`
    and `save_kline_data`.

Python float arithmetic is modelled over `ℚ` for the engine and the store
(only comparisons, `+`, `*`, `/` occur there) and over `ℝ` for the
Bollinger indicator (which takes a square root).  Exceptions are modelled
with `Except`; a method call on an attribute the class does not define
raises `AttributeError`, which the enclosing handlers catch exactly as the
source does.  The exchange client the engine calls is abstracted as an
`Adapter` record of call results: each engine-side function takes the
adapter's responses as an argument, and the shipped client (whose trading
methods are absent from the repository, see `binanceFuturesClientMethods`)
corresponds to the adapter whose every call raises `AttributeError`.
-/

namespace BollPrice

/-- The eight values of `TradingState` in `src/trading_strategy.py` (lines 20-29).
The constructor names are the Python enum member names; the Python values are
Chinese description strings, reproduced in `stateLogLevel` below. -/
inductive TradingState where
  | WAITING
  | BREAKTHROUGH_UP_WAITING
  | HOLDING_SHORT
  | BREAKTHROUGH_UP_AGAIN_WAITING
  | BELOW_MB_WAITING
  | HOLDING_LONG
  | BELOW_DN_WAITING
  | ABOVE_MB_WAITING
  deriving DecidableEq, Repr

/-- `PositionSide` enum of `src/trading_strategy.py` (lines 31-35). -/
inductive PositionSide where
  | LONG
  | SHORT
  | NONE
  deriving DecidableEq, Repr

/-- Log levels passed to `add_log` (the `log_type` strings of the source). -/
inductive LogLevel where
  | info
  | warning
  | error
  | success
  deriving DecidableEq, Repr

/-- The `action` strings of `execute_trade`: 开仓 (open), 平仓 (close),
止损 (stop-loss), 止盈 (take-profit). -/
inductive TradeAction where
  | openPos
  | closePos
  | stopLoss
  | takeProfit
  deriving DecidableEq, Repr

/-- The `side` strings of `execute_trade`. -/
inductive Side where
  | BUY
  | SELL
  deriving DecidableEq, Repr

/-- Which client order method a trade invokes. -/
inductive OrderKind where
  | openLong
  | openShort
  | closeLong
  | closeShort
  deriving DecidableEq, Repr

/-- The `_last_boll_position` attribute values of `check_boll_breakthrough`. -/
inductive BollPos where
  | above_up
  | below_dn
  | between_dn_mb
  | between_mb_up
  deriving DecidableEq, Repr

/-- Result of a successful order call (`order_result` with its `orderId`). -/
structure OrderResult where
  orderId : ℕ
  deriving DecidableEq, Repr

/-- Shape of the dict `get_position_info` is expected to return, reconstructed
from its uses at `src/trading_strategy.py` lines 112-115 and 410-412
(keys `position_amt`, `entry_price`, `unrealized_pnl`);
the method itself is absent from the repository. -/
structure PositionData where
  position_amt : ℚ
  entry_price : ℚ
  unrealized_pnl : ℚ
  deriving DecidableEq, Repr

/-- Kinds of Python exception a client call can raise.  `attributeError` is
what actually happens when the invoked method is not defined on the class. -/
inductive PyErr where
  | attributeError
  | apiError
  deriving DecidableEq, Repr

/-- One entry of the list `get_futures_account_balance` is expected to return,
reconstructed from its use at `src/trading_strategy.py` lines 233-236
(keys `asset` and `balance`); the method itself is absent from the repository. -/
structure AssetBalance where
  asset : String
  balance : ℚ
  deriving DecidableEq, Repr

/-- Responses of the exchange-client methods the engine invokes, one field per
method, each either a value or a raised exception.  `src/trading_strategy.py`
calls these through `self.client`; none of them is defined in
`src/binance_client.py` (see `binanceFuturesClientMethods`). -/
structure Adapter where
  get_futures_account_balance : Except PyErr (List AssetBalance)
  get_position_info : Except PyErr (Option PositionData)
  open_long_position : Except PyErr OrderResult
  open_short_position : Except PyErr OrderResult
  close_long_position : Except PyErr OrderResult
  close_short_position : Except PyErr OrderResult
  deriving Repr

/-- The adapter corresponding to the shipped `BinanceFuturesClient`: every
trading method the engine calls is missing from the class, so every call
raises `AttributeError`. -/
def missingMethodsAdapter : Adapter :=
  { get_futures_account_balance := .error .attributeError
    get_position_info := .error .attributeError
    open_long_position := .error .attributeError
    open_short_position := .error .attributeError
    close_long_position := .error .attributeError
    close_short_position := .error .attributeError }

/-- Trading configuration fields the engine reads
(`position_ratio` and `leverage` from `get_trading_config`,
`src/binance_config.py` lines 36-39). -/
structure TradingConfig where
  position_fraction : ℚ
  leverage : ℚ
  deriving DecidableEq, Repr

/-- The default configuration of `src/binance_config.py`:
`DEFAULT_POSITION_RATIO = 0.70`, `DEFAULT_LEVERAGE = 10`. -/
def defaultConfig : TradingConfig :=
  { position_fraction := 7/10
    leverage := 10 }

/-- Mutable fields of `TradingEngine` that the embedded methods touch
(`src/trading_strategy.py` lines 59-83). -/
structure EngineState where
  current_state : TradingState
  position_side : PositionSide
  position_size : ℚ
  entry_price : ℚ
  last_close_price : ℚ
  boll_up : ℚ
  boll_mb : ℚ
  boll_dn : ℚ
  last_boll_position : Option BollPos
  trading_logs : List LogLevel
  deriving DecidableEq, Repr

/-- One trade record the engine emits on a successful order: the arguments of
`execute_trade`, the client method dispatched to, the submitted quantity,
the price (`last_close_price`) and the returned order id. -/
structure TradeRec where
  side : Side
  action : TradeAction
  kind : OrderKind
  quantity : ℚ
  price : ℚ
  orderId : ℕ
  deriving DecidableEq, Repr

/-- `add_log` (`src/trading_strategy.py` lines 176-194): append the entry and
trim the list to the last `max_logs = 100` entries.  Only the log level is
retained in the model. -/
def addLog (lvl : LogLevel) (s : EngineState) : EngineState :=
  let l := s.trading_logs ++ [lvl]
  { s with trading_logs := if l.length > 100 then l.drop (l.length - 100) else l }

/-- The log level `change_state` picks for each state
(`src/trading_strategy.py` lines 347-359): the Python code tests the state's
Chinese value string for the substrings 突破 / 持仓 / 持有 / 等待, yielding
warning / success / success / info respectively, tried in that order.  The
outcome per state value is tabulated here. -/
def stateLogLevel : TradingState → LogLevel
  | .WAITING => .info
  | .BREAKTHROUGH_UP_WAITING => .warning
  | .HOLDING_SHORT => .success
  | .BREAKTHROUGH_UP_AGAIN_WAITING => .warning
  | .BELOW_MB_WAITING => .warning
  | .HOLDING_LONG => .success
  | .BELOW_DN_WAITING => .info
  | .ABOVE_MB_WAITING => .warning

/-- `change_state` (`src/trading_strategy.py` lines 336-373): set
`current_state` and append one log entry (callbacks are `None` by default). -/
def changeState (new_state : TradingState) (s : EngineState) : EngineState :=
  addLog (stateLogLevel new_state) { s with current_state := new_state }

/-- The USDT-balance scan of `calculate_safe_position_size`
(`src/trading_strategy.py` lines 232-236): first entry whose asset is
`USDT`, else 0. -/
def usdtBalance : List AssetBalance → ℚ
  | [] => 0
  | a :: rest => if a.asset = "USDT" then a.balance else usdtBalance rest

/-- `calculate_safe_position_size` (`src/trading_strategy.py` lines 214-254).
A raised exception (in particular the `AttributeError` from the missing
`get_futures_account_balance`) is caught and yields `0.0`; an empty or
missing balance list yields `0.0`; a non-positive USDT balance yields `0.0`;
otherwise `quantity = (usdt_balance * position_ratio * leverage) / price`.
No lot-step rounding is performed anywhere. -/
def calculate_safe_position_size (cfg : TradingConfig) (a : Adapter)
    (current_price : ℚ) : ℚ :=
  match a.get_futures_account_balance with
  | .error _ => 0
  | .ok balance_data =>
    if balance_data = [] then 0
    else
      let usdt := usdtBalance balance_data
      if usdt ≤ 0 then 0
      else (usdt * cfg.position_fraction * cfg.leverage) / current_price

/-- `execute_trade` (`src/trading_strategy.py` lines 375-487).  Returns the
Python return value (`True` on success, `False` otherwise), the engine state
after the call, and the list of successfully submitted orders (empty or a
singleton).  The initial info log is the 准备执行交易 message; a raised
client exception lands in the outer handler, which logs an error and
returns `False`. -/
def executeTrade (cfg : TradingConfig) (a : Adapter) (side : Side)
    (action : TradeAction) (s : EngineState) :
    Bool × EngineState × List TradeRec :=
  let s := addLog .info s
  if action = .openPos then
    let quantity := calculate_safe_position_size cfg a s.last_close_price
    if quantity ≤ 0 then
      (false, addLog .warning s, [])
    else
      match side with
      | .BUY =>
        match a.open_long_position with
        | .error _ => (false, addLog .error s, [])
        | .ok o =>
          let s' := { s with position_side := .LONG,
                             entry_price := s.last_close_price,
                             position_size := quantity }
          (true, addLog .success s',
            [⟨.BUY, action, .openLong, quantity, s.last_close_price, o.orderId⟩])
      | .SELL =>
        match a.open_short_position with
        | .error _ => (false, addLog .error s, [])
        | .ok o =>
          let s' := { s with position_side := .SHORT,
                             entry_price := s.last_close_price,
                             position_size := quantity }
          (true, addLog .success s',
            [⟨.SELL, action, .openShort, quantity, s.last_close_price, o.orderId⟩])
  else
    match a.get_position_info with
    | .error _ => (false, addLog .error s, [])
    | .ok none => (false, addLog .warning s, [])
    | .ok (some p) =>
      let quantity := |p.position_amt|
      match s.position_side with
      | .LONG =>
        match a.close_long_position with
        | .error _ => (false, addLog .error s, [])
        | .ok o =>
          let s' := { s with position_side := .NONE,
                             position_size := 0, entry_price := 0 }
          (true, addLog .success s',
            [⟨side, action, .closeLong, quantity, s.last_close_price, o.orderId⟩])
      | .SHORT =>
        match a.close_short_position with
        | .error _ => (false, addLog .error s, [])
        | .ok o =>
          let s' := { s with position_side := .NONE,
                             position_size := 0, entry_price := 0 }
          (true, addLog .success s',
            [⟨side, action, .closeShort, quantity, s.last_close_price, o.orderId⟩])
      | .NONE =>
        let s' := { s with position_side := .NONE,
                           position_size := 0, entry_price := 0 }
        (false, addLog .error s', [])

/-- `check_boll_breakthrough` (`src/trading_strategy.py` lines 599-634):
position-logging only; updates `_last_boll_position` and the log list,
nothing else. -/
def checkBollBreakthrough (current_price : ℚ) (s : EngineState) : EngineState :=
  if s.boll_up = 0 ∨ s.boll_mb = 0 ∨ s.boll_dn = 0 then s
  else if current_price > s.boll_up then
    if s.last_boll_position ≠ some .above_up then
      { addLog .warning s with last_boll_position := some .above_up }
    else s
  else if current_price < s.boll_dn then
    if s.last_boll_position ≠ some .below_dn then
      { addLog .warning s with last_boll_position := some .below_dn }
    else s
  else if s.boll_dn ≤ current_price ∧ current_price ≤ s.boll_mb then
    if s.last_boll_position ≠ some .between_dn_mb then
      { addLog .info s with last_boll_position := some .between_dn_mb }
    else s
  else if s.boll_mb ≤ current_price ∧ current_price ≤ s.boll_up then
    if s.last_boll_position ≠ some .between_mb_up then
      { addLog .info s with last_boll_position := some .between_mb_up }
    else s
  else s

/-- The state dispatch of `process_trading_logic`
(`src/trading_strategy.py` lines 500-592), branch for branch.  `st` is the
value of `self.current_state` read at dispatch time; `s` the engine state the
branch body runs on.  Return values of `execute_trade` are discarded exactly
as in the source. -/
def dispatchState (cfg : TradingConfig) (a : Adapter) (st : TradingState)
    (s : EngineState) : EngineState × List TradeRec :=
  let close_price := s.last_close_price
  match st with
  | .WAITING =>
    if close_price > s.boll_up then
      (changeState .BREAKTHROUGH_UP_WAITING (addLog .warning s), [])
    else (s, [])
  | .BREAKTHROUGH_UP_WAITING =>
    if close_price < s.boll_up then
      let s := addLog .warning s
      let r := executeTrade cfg a .SELL .openPos s
      (changeState .HOLDING_SHORT r.2.1, r.2.2)
    else (s, [])
  | .HOLDING_SHORT =>
    if close_price > s.boll_up then
      let s := addLog .error s
      let r := executeTrade cfg a .BUY .stopLoss s
      (changeState .BREAKTHROUGH_UP_AGAIN_WAITING r.2.1, r.2.2)
    else if close_price < s.boll_mb then
      (changeState .BELOW_MB_WAITING (addLog .success s), [])
    else (s, [])
  | .BREAKTHROUGH_UP_AGAIN_WAITING =>
    if close_price < s.boll_up then
      let s := addLog .warning s
      let r := executeTrade cfg a .SELL .openPos s
      (changeState .HOLDING_SHORT r.2.1, r.2.2)
    else (s, [])
  | .BELOW_MB_WAITING =>
    if close_price > s.boll_mb then
      let s := addLog .success s
      let r1 := executeTrade cfg a .BUY .takeProfit s
      let r2 := executeTrade cfg a .BUY .openPos r1.2.1
      (changeState .HOLDING_LONG r2.2.1, r1.2.2 ++ r2.2.2)
    else if close_price < s.boll_dn then
      (changeState .BELOW_DN_WAITING (addLog .warning s), [])
    else (s, [])
  | .HOLDING_LONG =>
    if close_price < s.boll_mb then
      let s := addLog .error s
      let r := executeTrade cfg a .SELL .stopLoss s
      (changeState .WAITING r.2.1, r.2.2)
    else if close_price > s.boll_up then
      let s := addLog .success s
      let s := changeState .BREAKTHROUGH_UP_WAITING s
      let r1 := executeTrade cfg a .SELL .takeProfit s
      let r2 := executeTrade cfg a .SELL .openPos r1.2.1
      (changeState .HOLDING_SHORT r2.2.1, r1.2.2 ++ r2.2.2)
    else (s, [])
  | .BELOW_DN_WAITING =>
    if close_price > s.boll_dn then
      let s := addLog .success s
      let r1 := executeTrade cfg a .BUY .takeProfit s
      let r2 := executeTrade cfg a .BUY .openPos r1.2.1
      (changeState .HOLDING_LONG r2.2.1, r1.2.2 ++ r2.2.2)
    else (s, [])
  | .ABOVE_MB_WAITING =>
    if close_price > s.boll_up then
      (changeState .BREAKTHROUGH_UP_WAITING (addLog .warning s), [])
    else if close_price < s.boll_mb then
      let s := addLog .success s
      let r1 := executeTrade cfg a .SELL .takeProfit s
      let r2 := executeTrade cfg a .SELL .openPos r1.2.1
      (changeState .HOLDING_SHORT r2.2.1, r1.2.2 ++ r2.2.2)
    else (s, [])

/-- `process_trading_logic` (`src/trading_strategy.py` lines 489-597):
run `check_boll_breakthrough` on the close price, then dispatch on
`self.current_state` (untouched by the breakthrough check). -/
def processTradingLogic (cfg : TradingConfig) (a : Adapter) (s : EngineState) :
    EngineState × List TradeRec :=
  let s' := checkBollBreakthrough s.last_close_price s
  dispatchState cfg a s'.current_state s'

/-- `check_startup_position` (`src/trading_strategy.py` lines 101-163),
parameterised by the response of the `get_position_info` call.  A raised
exception (the shipped client always raises `AttributeError`) lands in the
handler which resets side/state only; a missing or flat position resets
side, state, size and entry; otherwise side and state follow the sign of
`position_amt`, with `position_size = |position_amt|` and the venue entry
price. -/
def checkStartupPosition (q : Except PyErr (Option PositionData))
    (s : EngineState) : EngineState :=
  let s := addLog .info s
  match q with
  | .error _ =>
    addLog .warning (addLog .error
      { s with position_side := .NONE, current_state := .WAITING })
  | .ok q' =>
    match q' with
    | some p =>
      if p.position_amt ≠ 0 then
        let s :=
          if p.position_amt > 0 then
            { s with position_side := .LONG, current_state := .HOLDING_LONG }
          else if p.position_amt < 0 then
            { s with position_side := .SHORT, current_state := .HOLDING_SHORT }
          else s
        let s := { s with position_size := |p.position_amt|,
                          entry_price := p.entry_price }
        addLog .info (addLog
          (if p.unrealized_pnl ≥ 0 then .info else .warning)
          (addLog .info (addLog .success s)))
      else
        addLog .info (addLog .info
          { s with position_side := .NONE, current_state := .WAITING,
                   position_size := 0, entry_price := 0 })
    | none =>
      addLog .info (addLog .info
        { s with position_side := .NONE, current_state := .WAITING,
                 position_size := 0, entry_price := 0 })

/-- Market data of one closed bar as `update_market_data` writes it into the
engine (`src/trading_strategy.py` lines 282-297): close price and the three
band values of the last bar. -/
structure BarData where
  close : ℚ
  up : ℚ
  mb : ℚ
  dn : ℚ
  deriving DecidableEq, Repr

/-- The successful branch of `update_market_data`: store the latest close
and band values into the engine state. -/
def updateMarket (b : BarData) (s : EngineState) : EngineState :=
  { s with last_close_price := b.close, boll_up := b.up,
           boll_mb := b.mb, boll_dn := b.dn }

/-- One iteration of `monitoring_loop` on fresh data: ingest the bar, then
run `process_trading_logic`; iterated over a list of (adapter response,
bar) pairs. -/
def runBars (cfg : TradingConfig) (steps : List (Adapter × BarData))
    (s : EngineState) : EngineState :=
  steps.foldl (fun st ab => (processTradingLogic cfg ab.1 (updateMarket ab.2 st)).1) s

/-! Client and indicator: `src/binance_client.py`. -/

/-- One kline dict as `calculate_boll` and `get_klines_with_boll` consume it:
only the `timestamp` and `close` keys are read
(`src/binance_client.py` lines 423 and 455). -/
structure ClientKline where
  timestamp : ℤ
  close : ℝ

/-- The dict returned by `calculate_boll`:
keys `upper`, `middle`, `lower`, each a list with `None` holes. -/
structure BollDict where
  upper : List (Option ℝ)
  middle : List (Option ℝ)
  lower : List (Option ℝ)

/-- Body of the loop of `calculate_boll` at index `i`
(`src/binance_client.py` lines 429-449): below `period - 1` all three
entries are `None`; otherwise the window is the slice
`closes[i - period + 1 : i + 1]` (here `drop (i + 1 - period)` then
`take period`, the drop count being the same natural number in the branch
where it runs), `sma` its mean, `variance` the population variance
(division by `period`), `std = variance ** 0.5`, and the bands are
`sma ± std_dev * std`. -/
noncomputable def bollEntry (closes : List ℝ) (period : ℕ) (std_dev : ℝ)
    (i : ℕ) : Option ℝ × Option ℝ × Option ℝ :=
  if i < period - 1 then (none, none, none)
  else
    let period_closes := (closes.drop (i + 1 - period)).take period
    let sma := period_closes.sum / (period : ℝ)
    let variance := (period_closes.map (fun x => (x - sma) ^ 2)).sum / (period : ℝ)
    let std := Real.sqrt variance
    (some (sma + std_dev * std), some sma, some (sma - std_dev * std))

/-- `calculate_boll` (`src/binance_client.py` lines 405-470).  Fewer than
`period` klines give three empty lists; otherwise one entry per kline as in
`bollEntry`.  The per-row `save_boll_indicator` call inside the loop
swallows its own exceptions (`src/database.py` lines 335-354), so the
returned value is exactly the computed one. -/
noncomputable def calculate_boll (klines : List ClientKline) (period : ℕ)
    (std_dev : ℝ) : BollDict :=
  if klines.length < period then ⟨[], [], []⟩
  else
    let closes := klines.map ClientKline.close
    { upper := (List.range closes.length).map fun i => (bollEntry closes period std_dev i).1
      middle := (List.range closes.length).map fun i => (bollEntry closes period std_dev i).2.1
      lower := (List.range closes.length).map fun i => (bollEntry closes period std_dev i).2.2 }

/-- The methods defined on class `BinanceFuturesClient`
(`src/binance_client.py`, `def` lines of the class body).  Invoking any
other attribute raises `AttributeError`. -/
def binanceFuturesClientMethods : List String :=
  ["__init__", "_test_connection", "get_futures_account_info",
   "get_futures_balances", "get_futures_positions", "get_futures_open_orders",
   "get_futures_recent_trades", "get_futures_24hr_ticker",
   "get_futures_income_history", "get_all_futures_data", "get_klines",
   "get_klines_from_db", "calculate_boll", "get_klines_with_boll"]

/-- The dict `get_klines_with_boll` would return on success. -/
structure KlinesWithBoll where
  symbol : String
  interval : String
  klines : List ClientKline
  boll : BollDict

/-- `get_klines_with_boll` (`src/binance_client.py` lines 472-501).  The body
first evaluates `self.get_futures_klines(symbol, interval, limit)`; the class
does not define that attribute, so the call raises `AttributeError`, which the
enclosing `except` catches, returning `None`.  `fetched` stands for the value
the missing method would produce were it defined (falsy `None`/empty list
yields `None` per line 487-488). -/
noncomputable def get_klines_with_boll (fetched : Option (List ClientKline))
    (symbol interval : String) (limit : ℕ) : Option KlinesWithBoll :=
  if "get_futures_klines" ∈ binanceFuturesClientMethods then
    match fetched with
    | none => none
    | some ks =>
      if ks.isEmpty then none
      else some ⟨symbol, interval, ks, calculate_boll ks 20 2⟩
  else none

/-- Tests that a band list is non-empty with a defined last entry, the guard
of `src/trading_strategy.py` lines 292-293. -/
def lastDefined (l : List (Option ℝ)) : Bool :=
  match l.getLast? with
  | some (some _) => true
  | _ => false

/-- The Boolean outcome of `update_market_data`
(`src/trading_strategy.py` lines 258-334).  `connOk` is whether the initial
`get_server_time` probe succeeds; `data` is what
`get_klines_with_boll` returned.  `None` data, empty klines, or missing band
values all return `False`; the dict-shape checks (`'klines' in data`,
`isinstance(boll, dict)`, dict truthiness of `boll`) always pass for a value
actually returned by `get_klines_with_boll`. -/
def updateMarketData (connOk : Bool) (data : Option KlinesWithBoll) : Bool :=
  if ¬connOk then false
  else
    match data with
    | none => false
    | some d =>
      if d.klines.isEmpty then false
      else
        if lastDefined d.boll.upper ∧ lastDefined d.boll.middle ∧
           lastDefined d.boll.lower then
          true
        else false

/-! Store: the `klines` table of `src/database.py`. -/

/-- Key of the `klines` table: `UNIQUE(symbol, interval_type, open_time)`
(`src/database.py` line 50). -/
abbrev KlineKey := String × String × ℤ

/-- The non-key columns of one `klines` row (`src/database.py` lines 33-51). -/
structure KlineRowData where
  close_time : ℤ
  open_price : ℚ
  high_price : ℚ
  low_price : ℚ
  close_price : ℚ
  volume : ℚ
  quote_volume : ℚ
  trades_count : ℤ
  taker_buy_base_volume : ℚ
  taker_buy_quote_volume : ℚ
  deriving DecidableEq, Repr

/-- The `klines` table, as the list of its rows. -/
abbrev KlinesTable := List (KlineKey × KlineRowData)

/-- `INSERT OR REPLACE INTO klines` under the unique key: SQLite deletes any
row with the same `(symbol, interval_type, open_time)` and appends the new
one. -/
def upsertKline (k : KlineKey) (r : KlineRowData) (t : KlinesTable) :
    KlinesTable :=
  (t.filter fun p => decide (p.1 ≠ k)) ++ [(k, r)]

/-- Row stored under key `k`, if any. -/
def lookupKline (k : KlineKey) (t : KlinesTable) : Option KlineRowData :=
  (t.find? fun p => decide (p.1 = k)).map Prod.snd

/-- A sequence of single-row upserts (the loop of `save_klines`,
`src/database.py` lines 106-124, and equally a sequence of
`save_kline_data` calls).  The `IntegrityError` handler of the loop is dead
under `INSERT OR REPLACE`, which never raises a uniqueness conflict. -/
def ingestKlines (rows : List (KlineKey × KlineRowData)) (t : KlinesTable) :
    KlinesTable :=
  rows.foldl (fun acc kr => upsertKline kr.1 kr.2 acc) t

/-- `save_klines` (`src/database.py` lines 89-132): upsert each row of the
batch under `(symbol, interval, row.open_time)` in delivery order. -/
def save_klines (symbol interval : String)
    (klines_data : List (ℤ × KlineRowData)) (t : KlinesTable) : KlinesTable :=
  ingestKlines (klines_data.map fun kr => ((symbol, interval, kr.1), kr.2)) t

/-- `save_kline_data` (`src/database.py` lines 274-314): upsert one row,
filling `close_time := timestamp + 60000` (source comment on line 305:
假设1分钟间隔, i.e. it assumes a 1-minute interval for every `interval`
argument) and zeroing the remaining columns. -/
def save_kline_data (symbol interval : String) (timestamp : ℤ)
    (open_price high_price low_price close_price volume : ℚ)
    (t : KlinesTable) : KlinesTable :=
  upsertKline (symbol, interval, timestamp)
    { close_time := timestamp + 60000
      open_price := open_price
      high_price := high_price
      low_price := low_price
      close_price := close_price
      volume := volume
      quote_volume := 0
      trades_count := 0
      taker_buy_base_volume := 0
      taker_buy_quote_volume := 0 } t

/-- Interval durations in milliseconds.  Modelled from the spec: the
`interval` enum of section 6 (1m, 5m, 15m, 1h, 4h, 1d) and the section 3
invariant that `close_time - open_time` equals the interval duration; no
duration table exists in the source. -/
def intervalDurationMs (interval : String) : Option ℤ :=
  if interval = "1m" then some 60000
  else if interval = "5m" then some 300000
  else if interval = "15m" then some 900000
  else if interval = "1h" then some 3600000
  else if interval = "4h" then some 14400000
  else if interval = "1d" then some 86400000
  else none

/-- The engine state right after `__init__`
(`src/trading_strategy.py` lines 60-70), before `check_startup_position`. -/
def initialEngineState : EngineState :=
  { current_state := .WAITING
    position_side := .NONE
    position_size := 0
    entry_price := 0
    last_close_price := 0
    boll_up := 0
    boll_mb := 0
    boll_dn := 0
    last_boll_position := none
    trading_logs := [] }

/-- The band values compared by the guards of each state's dispatch branch in
`process_trading_logic` (`src/trading_strategy.py` lines 501-592): S0, S1, S3
compare against `up` only; S2 against `up` and `mb`; S4 against `mb` and
`dn`; S5 against `mb` and `up`; S6 against `dn`; S7 against `up` and `mb`. -/
def guardBands (st : TradingState) (up mb dn : ℚ) : List ℚ :=
  match st with
  | .WAITING => [up]
  | .BREAKTHROUGH_UP_WAITING => [up]
  | .HOLDING_SHORT => [up, mb]
  | .BREAKTHROUGH_UP_AGAIN_WAITING => [up]
  | .BELOW_MB_WAITING => [mb, dn]
  | .HOLDING_LONG => [mb, up]
  | .BELOW_DN_WAITING => [dn]
  | .ABOVE_MB_WAITING => [up, mb]

/-- Keys currently present in the `klines` table. -/
def tableKeys (t : KlinesTable) : List KlineKey := t.map Prod.fst

/-- A delivery batch is key-consistent when rows sharing a
`(symbol, interval, open_time)` key carry identical column values. -/
def keyConsistent (l : List (KlineKey × KlineRowData)) : Prop :=
  ∀ p ∈ l, ∀ q ∈ l, p.1 = q.1 → p.2 = q.2

/-- An engine state sitting in `BREAKTHROUGH_UP_WAITING` (S1) whose next
closed bar has `close = 99 < up = 100`: the S1 guard `close < up` fires. -/
def engineStateAtS1 : EngineState :=
  { initialEngineState with
      current_state := .BREAKTHROUGH_UP_WAITING
      last_close_price := 99
      boll_up := 100
      boll_mb := 90
      boll_dn := 80 }

/-- An adapter whose balance query succeeds (1000 USDT) but whose
`open_short_position` call fails with an API error. -/
def adapterFailingOpenShort : Adapter :=
  { missingMethodsAdapter with
      get_futures_account_balance := .ok [⟨"USDT", 1000⟩]
      open_short_position := .error .apiError }

/-- An adapter whose balance query succeeds (1000 USDT) and whose
`open_short_position` call fills with order id 1. -/
def adapterFillingOpenShort : Adapter :=
  { missingMethodsAdapter with
      get_futures_account_balance := .ok [⟨"USDT", 1000⟩]
      open_short_position := .ok ⟨1⟩ }

/-- A kline row closing at 7. -/
def rowCloseSeven : KlineRowData :=
  { close_time := 60000, open_price := 5, high_price := 8, low_price := 4
    close_price := 7, volume := 1, quote_volume := 0, trades_count := 0
    taker_buy_base_volume := 0, taker_buy_quote_volume := 0 }

/-- A kline row identical to `rowCloseSeven` except that it closes at 9. -/
def rowCloseNine : KlineRowData :=
  { rowCloseSeven with close_price := 9 }


/-- An engine state in S6 (`BELOW_DN_WAITING`) holding a tracked short of
2 units entered at 95, with bands `up = 100, mb = 90, dn = 80` and a bar
closing at 85, above the lower band. -/
def engineStateAtS6 : EngineState :=
  { initialEngineState with
      current_state := .BELOW_DN_WAITING
      position_side := .SHORT
      position_size := 2
      entry_price := 95
      last_close_price := 85
      boll_up := 100
      boll_mb := 90
      boll_dn := 80 }

/-- An adapter for the S6 reverse path: the venue reports a short of 2 at
entry 95, the balance is 1000 USDT, `close_short_position` fills with order
id 6 and `open_long_position` with order id 7. -/
def adapterS6 : Adapter :=
  { get_futures_account_balance := .ok [⟨"USDT", 1000⟩]
    get_position_info := .ok (some ⟨-2, 95, 0⟩)
    open_long_position := .ok ⟨7⟩
    open_short_position := .error .attributeError
    close_long_position := .error .attributeError
    close_short_position := .ok ⟨6⟩ }

/-- The window `closes[i−P+1..i]` as the spec phrases it: the last `P`
entries of the first `i+1` closes. -/
noncomputable def specWindow (closes : List ℝ) (period i : ℕ) : List ℝ :=
  (closes.take (i + 1)).drop (i + 1 - period)

/-- Simple mean of a window, per the spec (`middle`). -/
noncomputable def specMean (w : List ℝ) (period : ℕ) : ℝ := w.sum / (period : ℝ)

/-- Population standard deviation of a window, per the spec: variance is
divided by `P`, not `P − 1`. -/
noncomputable def specSigma (w : List ℝ) (period : ℕ) : ℝ :=
  Real.sqrt ((w.map (fun x => (x - specMean w period) ^ 2)).sum / (period : ℝ))


/-! Projection lemmas: `add_log`, `check_boll_breakthrough`, `change_state`
and `execute_trade` leave the fields they do not assign untouched. -/

@[simp] theorem addLog_current_state (lvl : LogLevel) (s : EngineState) :
    (addLog lvl s).current_state = s.current_state := rfl

@[simp] theorem addLog_position_side (lvl : LogLevel) (s : EngineState) :
    (addLog lvl s).position_side = s.position_side := rfl

@[simp] theorem addLog_position_size (lvl : LogLevel) (s : EngineState) :
    (addLog lvl s).position_size = s.position_size := rfl

@[simp] theorem addLog_entry_price (lvl : LogLevel) (s : EngineState) :
    (addLog lvl s).entry_price = s.entry_price := rfl

@[simp] theorem addLog_last_close_price (lvl : LogLevel) (s : EngineState) :
    (addLog lvl s).last_close_price = s.last_close_price := rfl

@[simp] theorem addLog_boll_up (lvl : LogLevel) (s : EngineState) :
    (addLog lvl s).boll_up = s.boll_up := rfl

@[simp] theorem addLog_boll_mb (lvl : LogLevel) (s : EngineState) :
    (addLog lvl s).boll_mb = s.boll_mb := rfl

@[simp] theorem addLog_boll_dn (lvl : LogLevel) (s : EngineState) :
    (addLog lvl s).boll_dn = s.boll_dn := rfl

@[simp] theorem checkBollBreakthrough_current_state (c : ℚ) (s : EngineState) :
    (checkBollBreakthrough c s).current_state = s.current_state := by
  unfold checkBollBreakthrough; split_ifs <;> rfl

@[simp] theorem checkBollBreakthrough_position_side (c : ℚ) (s : EngineState) :
    (checkBollBreakthrough c s).position_side = s.position_side := by
  unfold checkBollBreakthrough; split_ifs <;> rfl

@[simp] theorem checkBollBreakthrough_position_size (c : ℚ) (s : EngineState) :
    (checkBollBreakthrough c s).position_size = s.position_size := by
  unfold checkBollBreakthrough; split_ifs <;> rfl

@[simp] theorem checkBollBreakthrough_entry_price (c : ℚ) (s : EngineState) :
    (checkBollBreakthrough c s).entry_price = s.entry_price := by
  unfold checkBollBreakthrough; split_ifs <;> rfl

@[simp] theorem checkBollBreakthrough_last_close_price (c : ℚ) (s : EngineState) :
    (checkBollBreakthrough c s).last_close_price = s.last_close_price := by
  unfold checkBollBreakthrough; split_ifs <;> rfl

@[simp] theorem checkBollBreakthrough_boll_up (c : ℚ) (s : EngineState) :
    (checkBollBreakthrough c s).boll_up = s.boll_up := by
  unfold checkBollBreakthrough; split_ifs <;> rfl

@[simp] theorem checkBollBreakthrough_boll_mb (c : ℚ) (s : EngineState) :
    (checkBollBreakthrough c s).boll_mb = s.boll_mb := by
  unfold checkBollBreakthrough; split_ifs <;> rfl

@[simp] theorem checkBollBreakthrough_boll_dn (c : ℚ) (s : EngineState) :
    (checkBollBreakthrough c s).boll_dn = s.boll_dn := by
  unfold checkBollBreakthrough; split_ifs <;> rfl

@[simp] theorem changeState_current_state (ns : TradingState) (s : EngineState) :
    (changeState ns s).current_state = ns := rfl

@[simp] theorem changeState_position_side (ns : TradingState) (s : EngineState) :
    (changeState ns s).position_side = s.position_side := rfl

@[simp] theorem changeState_position_size (ns : TradingState) (s : EngineState) :
    (changeState ns s).position_size = s.position_size := rfl

@[simp] theorem changeState_entry_price (ns : TradingState) (s : EngineState) :
    (changeState ns s).entry_price = s.entry_price := rfl

@[simp] theorem executeTrade_current_state (cfg : TradingConfig) (a : Adapter)
    (sd : Side) (ac : TradeAction) (s : EngineState) :
    (executeTrade cfg a sd ac s).2.1.current_state = s.current_state := by
  unfold executeTrade
  dsimp only
  repeat' split
  all_goals rfl

@[simp] theorem executeTrade_last_close_price (cfg : TradingConfig) (a : Adapter)
    (sd : Side) (ac : TradeAction) (s : EngineState) :
    (executeTrade cfg a sd ac s).2.1.last_close_price = s.last_close_price := by
  unfold executeTrade
  dsimp only
  repeat' split
  all_goals rfl

@[simp] theorem executeTrade_boll_up (cfg : TradingConfig) (a : Adapter)
    (sd : Side) (ac : TradeAction) (s : EngineState) :
    (executeTrade cfg a sd ac s).2.1.boll_up = s.boll_up := by
  unfold executeTrade
  dsimp only
  repeat' split
  all_goals rfl

@[simp] theorem executeTrade_boll_mb (cfg : TradingConfig) (a : Adapter)
    (sd : Side) (ac : TradeAction) (s : EngineState) :
    (executeTrade cfg a sd ac s).2.1.boll_mb = s.boll_mb := by
  unfold executeTrade
  dsimp only
  repeat' split
  all_goals rfl

@[simp] theorem executeTrade_boll_dn (cfg : TradingConfig) (a : Adapter)
    (sd : Side) (ac : TradeAction) (s : EngineState) :
    (executeTrade cfg a sd ac s).2.1.boll_dn = s.boll_dn := by
  unfold executeTrade
  dsimp only
  repeat' split
  all_goals rfl

/-! Lemmas about the `klines` table. -/

theorem find?_filter_ne (k : KlineKey) (t : KlinesTable) :
    (t.filter fun p => decide (p.1 ≠ k)).find? (fun p => decide (p.1 = k))
      = none := by
  induction t with
  | nil => rfl
  | cons a tl ih =>
    by_cases h : a.1 = k
    · simpa [List.filter_cons, h] using ih
    · simpa [List.filter_cons, List.find?_cons, h] using ih

theorem find?_filter_other {k k' : KlineKey} (h : k ≠ k') (t : KlinesTable) :
    (t.filter fun p => decide (p.1 ≠ k')).find? (fun p => decide (p.1 = k))
      = t.find? (fun p => decide (p.1 = k)) := by
  induction t with
  | nil => rfl
  | cons a tl ih =>
    rw [List.filter_cons, List.find?_cons]
    by_cases ha : a.1 = k'
    · have hak : ¬a.1 = k := fun hh => h (hh.symm.trans ha)
      rw [decide_eq_false (by simpa using ha), decide_eq_false hak]
      simpa using ih
    · rw [decide_eq_true (p := a.1 ≠ k') ha]
      simp only [if_true]
      rw [List.find?_cons]
      by_cases hak : a.1 = k
      · rw [decide_eq_true (p := a.1 = k) hak]
      · rw [decide_eq_false hak]
        simpa using ih

theorem lookupKline_upsert_self (k : KlineKey) (r : KlineRowData)
    (t : KlinesTable) : lookupKline k (upsertKline k r t) = some r := by
  unfold lookupKline upsertKline
  rw [List.find?_append, find?_filter_ne]
  simp [List.find?_cons]

theorem lookupKline_upsert_other {k k' : KlineKey} (h : k ≠ k')
    (r : KlineRowData) (t : KlinesTable) :
    lookupKline k (upsertKline k' r t) = lookupKline k t := by
  unfold lookupKline upsertKline
  rw [List.find?_append, find?_filter_other h]
  have h' : ¬k' = k := fun hh => h hh.symm
  simp [List.find?_cons, h']

/-- C2: `get_klines_with_boll` always returns `None` — the klines fetch
invokes `get_futures_klines`, which `BinanceFuturesClient` does not define,
so the call raises `AttributeError`, the enclosing handler catches it, and
`None` is returned whatever the arguments (and whatever the missing fetch
would have produced); consequently `update_market_data` never returns
`True`. -/
theorem claim_get_klines_with_boll_always_none :
    "get_futures_klines" ∉ binanceFuturesClientMethods
  ∧ (∀ (fetched : Option (List ClientKline)) (symbol interval : String)
       (limit : ℕ), get_klines_with_boll fetched symbol interval limit = none)
  ∧ (∀ (connOk : Bool) (fetched : Option (List ClientKline))
       (symbol interval : String) (limit : ℕ),
       updateMarketData connOk (get_klines_with_boll fetched symbol interval limit)
         = false) := by
  have hmem : "get_futures_klines" ∉ binanceFuturesClientMethods := by decide
  have hnone : ∀ (fetched : Option (List ClientKline)) (symbol interval : String)
      (limit : ℕ), get_klines_with_boll fetched symbol interval limit = none := by
    intro fetched symbol interval limit
    unfold get_klines_with_boll
    rw [if_neg hmem]
  refine ⟨hmem, hnone, ?_⟩
  intro connOk fetched symbol interval limit
  rw [hnone]
  cases connOk <;> rfl

/-- C9 (code bug): every row persisted through the feed's kline ingest
(`get_klines` → `save_kline_data`) has `close_time = open_time + 60000`
regardless of the configured interval, because `save_kline_data` hardcodes a
one-minute duration (source comment 假设1分钟间隔); `open_time < close_time`
does hold, but for the shipped default interval `15m` the stored duration
60000 ms differs from the interval duration 900000 ms required by the
invariant. -/
theorem claim_close_time_interval_bug :
    (∀ (symbol interval : String) (timestamp : ℤ) (o h l c v : ℚ)
       (t : KlinesTable),
       ∃ r, lookupKline (symbol, interval, timestamp)
              (save_kline_data symbol interval timestamp o h l c v t) = some r ∧
            r.close_time - timestamp = 60000 ∧ timestamp < r.close_time)
  ∧ intervalDurationMs "15m" = some 900000
  ∧ (60000 : ℤ) ≠ 900000 := by
  refine ⟨?_, by decide, by decide⟩
  intro symbol interval timestamp o h l c v t
  unfold save_kline_data
  exact ⟨_, lookupKline_upsert_self _ _ _, by simp, by simp⟩

/-- C7: on startup the engine state is a function of the live position only:
a failed position query or a flat/absent position yields `WAITING` with no
tracked side; a positive `position_amt` yields `HOLDING_LONG`/`LONG`; a
negative one yields `HOLDING_SHORT`/`SHORT`; in the latter two cases
`position_size` is `|position_amt|` and `entry_price` the venue entry
price. -/
theorem claim_startup_state_from_position (s : EngineState) :
    (∀ e : PyErr,
        (checkStartupPosition (.error e) s).current_state = .WAITING ∧
        (checkStartupPosition (.error e) s).position_side = .NONE)
  ∧ ((checkStartupPosition (.ok none) s).current_state = .WAITING ∧
     (checkStartupPosition (.ok none) s).position_side = .NONE ∧
     (checkStartupPosition (.ok none) s).position_size = 0 ∧
     (checkStartupPosition (.ok none) s).entry_price = 0)
  ∧ (∀ p : PositionData, p.position_amt = 0 →
        (checkStartupPosition (.ok (some p)) s).current_state = .WAITING ∧
        (checkStartupPosition (.ok (some p)) s).position_side = .NONE)
  ∧ (∀ p : PositionData, 0 < p.position_amt →
        (checkStartupPosition (.ok (some p)) s).current_state = .HOLDING_LONG ∧
        (checkStartupPosition (.ok (some p)) s).position_side = .LONG ∧
        (checkStartupPosition (.ok (some p)) s).position_size = |p.position_amt| ∧
        (checkStartupPosition (.ok (some p)) s).entry_price = p.entry_price)
  ∧ (∀ p : PositionData, p.position_amt < 0 →
        (checkStartupPosition (.ok (some p)) s).current_state = .HOLDING_SHORT ∧
        (checkStartupPosition (.ok (some p)) s).position_side = .SHORT ∧
        (checkStartupPosition (.ok (some p)) s).position_size = |p.position_amt| ∧
        (checkStartupPosition (.ok (some p)) s).entry_price = p.entry_price) := by
  refine ⟨?_, ?_, ?_, ?_, ?_⟩
  · intro e
    unfold checkStartupPosition
    exact ⟨rfl, rfl⟩
  · unfold checkStartupPosition
    exact ⟨rfl, rfl, rfl, rfl⟩
  · intro p hp
    unfold checkStartupPosition
    simp [hp]
  · intro p hp
    unfold checkStartupPosition
    simp [hp, hp.ne', hp.not_lt]
  · intro p hp
    unfold checkStartupPosition
    simp [hp, hp.ne, hp.not_lt]

/-- Witness for C7: a live short of 2 units entered at 100 puts the engine in
`HOLDING_SHORT` with side `SHORT`, size 2 and entry price 100. -/
theorem claim_startup_state_from_position_witness :
    ((⟨-2, 100, 5⟩ : PositionData).position_amt < 0) ∧
    (checkStartupPosition (.ok (some ⟨-2, 100, 5⟩)) initialEngineState).current_state
      = .HOLDING_SHORT ∧
    (checkStartupPosition (.ok (some ⟨-2, 100, 5⟩)) initialEngineState).position_side
      = .SHORT ∧
    (checkStartupPosition (.ok (some ⟨-2, 100, 5⟩)) initialEngineState).position_size
      = 2 ∧
    (checkStartupPosition (.ok (some ⟨-2, 100, 5⟩)) initialEngineState).entry_price
      = 100 := by
  have h := (claim_startup_state_from_position initialEngineState).2.2.2.2
    ⟨-2, 100, 5⟩ (by norm_num)
  exact ⟨by norm_num, h.1, h.2.1, by simpa using h.2.2.1, h.2.2.2⟩

theorem csps_balance_error (cfg : TradingConfig) (a : Adapter) (er : PyErr)
    (h : a.get_futures_account_balance = .error er) (price : ℚ) :
    calculate_safe_position_size cfg a price = 0 := by
  simp [calculate_safe_position_size, h]

theorem csps_value (cfg : TradingConfig) (a : Adapter) (bal : List AssetBalance)
    (h : a.get_futures_account_balance = .ok bal) (hne : bal ≠ [])
    (hpos : 0 < usdtBalance bal) (price : ℚ) :
    calculate_safe_position_size cfg a price
      = usdtBalance bal * cfg.position_fraction * cfg.leverage / price := by
  simp [calculate_safe_position_size, h, hne, not_le.mpr hpos]

theorem executeTrade_open_skip (cfg : TradingConfig) (a : Adapter)
    (sd : Side) (s : EngineState)
    (hq : calculate_safe_position_size cfg a s.last_close_price ≤ 0) :
    executeTrade cfg a sd .openPos s = (false, addLog .warning (addLog .info s), []) := by
  simp only [executeTrade, addLog_last_close_price]
  rw [if_true, if_pos hq]

theorem executeTrade_openShort_fail (cfg : TradingConfig) (a : Adapter)
    (s : EngineState) (er : PyErr)
    (ho : a.open_short_position = .error er)
    (hq : 0 < calculate_safe_position_size cfg a s.last_close_price) :
    executeTrade cfg a .SELL .openPos s = (false, addLog .error (addLog .info s), []) := by
  simp only [executeTrade, addLog_last_close_price, ho]
  rw [if_true, if_neg (not_le.mpr hq)]

theorem executeTrade_openShort_ok (cfg : TradingConfig) (a : Adapter)
    (s : EngineState) (o : OrderResult)
    (ho : a.open_short_position = .ok o)
    (hq : 0 < calculate_safe_position_size cfg a s.last_close_price) :
    executeTrade cfg a .SELL .openPos s =
      (true, addLog .success
        { addLog .info s with
            position_side := .SHORT
            entry_price := s.last_close_price
            position_size := calculate_safe_position_size cfg a s.last_close_price },
       [⟨.SELL, .openPos, .openShort,
         calculate_safe_position_size cfg a s.last_close_price,
         s.last_close_price, o.orderId⟩]) := by
  simp only [executeTrade, addLog_last_close_price, ho]
  rw [if_true, if_neg (not_le.mpr hq)]

theorem executeTrade_openLong_ok (cfg : TradingConfig) (a : Adapter)
    (s : EngineState) (o : OrderResult)
    (ho : a.open_long_position = .ok o)
    (hq : 0 < calculate_safe_position_size cfg a s.last_close_price) :
    executeTrade cfg a .BUY .openPos s =
      (true, addLog .success
        { addLog .info s with
            position_side := .LONG
            entry_price := s.last_close_price
            position_size := calculate_safe_position_size cfg a s.last_close_price },
       [⟨.BUY, .openPos, .openLong,
         calculate_safe_position_size cfg a s.last_close_price,
         s.last_close_price, o.orderId⟩]) := by
  simp only [executeTrade, addLog_last_close_price, ho]
  rw [if_true, if_neg (not_le.mpr hq)]

theorem executeTrade_close_short (cfg : TradingConfig) (a : Adapter)
    (s : EngineState) (sd : Side) (ac : TradeAction) (hac : ac ≠ .openPos)
    (p : PositionData) (o : OrderResult)
    (hpi : a.get_position_info = .ok (some p))
    (hside : s.position_side = .SHORT)
    (hcs : a.close_short_position = .ok o) :
    executeTrade cfg a sd ac s =
      (true, addLog .success
        { addLog .info s with
            position_side := .NONE
            position_size := 0
            entry_price := 0 },
       [⟨sd, ac, .closeShort, abs p.position_amt, s.last_close_price, o.orderId⟩]) := by
  simp only [executeTrade, addLog_position_side, addLog_last_close_price, hpi, hside, hcs]
  rw [if_neg hac]

theorem executeTrade_close_long (cfg : TradingConfig) (a : Adapter)
    (s : EngineState) (sd : Side) (ac : TradeAction) (hac : ac ≠ .openPos)
    (p : PositionData) (o : OrderResult)
    (hpi : a.get_position_info = .ok (some p))
    (hside : s.position_side = .LONG)
    (hcl : a.close_long_position = .ok o) :
    executeTrade cfg a sd ac s =
      (true, addLog .success
        { addLog .info s with
            position_side := .NONE
            position_size := 0
            entry_price := 0 },
       [⟨sd, ac, .closeLong, abs p.position_amt, s.last_close_price, o.orderId⟩]) := by
  simp only [executeTrade, addLog_position_side, addLog_last_close_price, hpi, hside, hcl]
  rw [if_neg hac]

theorem executeTrade_close_no_position (cfg : TradingConfig) (a : Adapter)
    (s : EngineState) (sd : Side) (ac : TradeAction) (hac : ac ≠ .openPos)
    (hpi : a.get_position_info = .ok none) :
    executeTrade cfg a sd ac s = (false, addLog .warning (addLog .info s), []) := by
  simp only [executeTrade, hpi]
  rw [if_neg hac]

/-- C1 (code bug): the dispatcher ignores the result of `execute_trade`.
From S1 (`BREAKTHROUGH_UP_WAITING`) with `close = 99 < up = 100`, an adapter
whose `open_short_position` call fails leaves no submitted order, yet
`process_trading_logic` still runs `change_state(HOLDING_SHORT)`: the engine
ends in S2, not back in S1 as the spec requires, so the state after the
handler differs from the state before it. -/
theorem claim_adapter_failure_still_advances_state :
    engineStateAtS1.current_state = .BREAKTHROUGH_UP_WAITING
  ∧ adapterFailingOpenShort.open_short_position = .error .apiError
  ∧ (processTradingLogic defaultConfig adapterFailingOpenShort engineStateAtS1).2 = []
  ∧ (processTradingLogic defaultConfig adapterFailingOpenShort engineStateAtS1).1.current_state
      = .HOLDING_SHORT
  ∧ TradingState.HOLDING_SHORT ≠ TradingState.BREAKTHROUGH_UP_WAITING := by
  have hq : (0:ℚ) < calculate_safe_position_size defaultConfig adapterFailingOpenShort
      (addLog .warning (checkBollBreakthrough engineStateAtS1.last_close_price
        engineStateAtS1)).last_close_price := by
    rw [addLog_last_close_price, checkBollBreakthrough_last_close_price,
        csps_value defaultConfig adapterFailingOpenShort [⟨"USDT", 1000⟩] rfl
          (by simp) (by simp [usdtBalance])]
    norm_num [usdtBalance, defaultConfig, engineStateAtS1, initialEngineState]
  have key : processTradingLogic defaultConfig adapterFailingOpenShort engineStateAtS1
      = (changeState .HOLDING_SHORT (addLog .error (addLog .info
          (addLog .warning (checkBollBreakthrough engineStateAtS1.last_close_price
            engineStateAtS1)))), []) := by
    simp only [processTradingLogic]
    rw [checkBollBreakthrough_current_state]
    have hst : engineStateAtS1.current_state = TradingState.BREAKTHROUGH_UP_WAITING := rfl
    rw [hst]
    unfold dispatchState
    dsimp only
    rw [if_pos (by simp; norm_num [engineStateAtS1, initialEngineState])]
    rw [executeTrade_openShort_fail defaultConfig adapterFailingOpenShort _ .apiError rfl hq]
  refine ⟨rfl, rfl, ?_, ?_, by decide⟩
  · rw [key]
  · rw [key]
    simp

/-- C3 (code bug): with the shipped client the balance query raises
`AttributeError`, so the computed position size is 0 and the open is skipped
with a warning and no submitted order — but the engine does not remain in
the pre-open state: from S1 it still advances to `HOLDING_SHORT`.  Moreover
no lot-step rounding exists: with a working balance of 1000 USDT the
submitted quantity is the raw quotient `1000 · 0.7 · 10 / 99 = 7000/99`. -/
theorem claim_open_sizing_skip_not_pre_open_state :
    calculate_safe_position_size defaultConfig missingMethodsAdapter 99 = 0
  ∧ (executeTrade defaultConfig missingMethodsAdapter .SELL .openPos engineStateAtS1).1
      = false
  ∧ (executeTrade defaultConfig missingMethodsAdapter .SELL .openPos engineStateAtS1).2.2
      = []
  ∧ (executeTrade defaultConfig missingMethodsAdapter .SELL .openPos
        engineStateAtS1).2.1.trading_logs.getLast? = some .warning
  ∧ (processTradingLogic defaultConfig missingMethodsAdapter engineStateAtS1).2 = []
  ∧ (processTradingLogic defaultConfig missingMethodsAdapter engineStateAtS1).1.current_state
      = .HOLDING_SHORT
  ∧ engineStateAtS1.current_state = .BREAKTHROUGH_UP_WAITING
  ∧ (executeTrade defaultConfig adapterFillingOpenShort .SELL .openPos engineStateAtS1).2.2
      = [⟨.SELL, .openPos, .openShort, 7000/99, 99, 1⟩] := by
  have h0 : ∀ price : ℚ,
      calculate_safe_position_size defaultConfig missingMethodsAdapter price = 0 :=
    fun price => csps_balance_error _ _ .attributeError rfl price
  have hskip : ∀ s : EngineState,
      executeTrade defaultConfig missingMethodsAdapter .SELL .openPos s
        = (false, addLog .warning (addLog .info s), []) :=
    fun s => executeTrade_open_skip _ _ _ _ (le_of_eq (h0 _))
  have hq : (0:ℚ) < calculate_safe_position_size defaultConfig adapterFillingOpenShort
      engineStateAtS1.last_close_price := by
    rw [csps_value _ _ [⟨"USDT", 1000⟩] rfl (by simp) (by simp [usdtBalance])]
    norm_num [usdtBalance, defaultConfig, engineStateAtS1, initialEngineState]
  have key : processTradingLogic defaultConfig missingMethodsAdapter engineStateAtS1
      = (changeState .HOLDING_SHORT (addLog .warning (addLog .info
          (addLog .warning (checkBollBreakthrough engineStateAtS1.last_close_price
            engineStateAtS1)))), []) := by
    simp only [processTradingLogic]
    rw [checkBollBreakthrough_current_state]
    have hst : engineStateAtS1.current_state = TradingState.BREAKTHROUGH_UP_WAITING := rfl
    rw [hst]
    unfold dispatchState
    dsimp only
    rw [if_pos (by simp; norm_num [engineStateAtS1, initialEngineState])]
    rw [hskip]
  refine ⟨h0 99, ?_, ?_, ?_, ?_, ?_, rfl, ?_⟩
  · rw [hskip]
  · rw [hskip]
  · rw [hskip]
    simp [addLog, engineStateAtS1, initialEngineState]
  · rw [key]
  · rw [key]
    simp
  · rw [executeTrade_openShort_ok _ _ _ ⟨1⟩ rfl hq]
    have hv : calculate_safe_position_size defaultConfig adapterFillingOpenShort
        engineStateAtS1.last_close_price = 7000/99 := by
      rw [csps_value _ _ [⟨"USDT", 1000⟩] rfl (by simp) (by simp [usdtBalance])]
      norm_num [usdtBalance, defaultConfig, engineStateAtS1, initialEngineState]
    rw [hv]
    norm_num [engineStateAtS1, initialEngineState]

@[simp] theorem updateMarket_current_state (b : BarData) (s : EngineState) :
    (updateMarket b s).current_state = s.current_state := rfl

theorem dispatchState_not_above_mb (cfg : TradingConfig) (a : Adapter)
    (st : TradingState) (s : EngineState) (hst : st ≠ .ABOVE_MB_WAITING)
    (hs : s.current_state = st) :
    (dispatchState cfg a st s).1.current_state ≠ .ABOVE_MB_WAITING := by
  cases st <;>
    first
      | exact absurd rfl hst
      | (unfold dispatchState
         dsimp only
         split_ifs <;> simp_all)

theorem processTradingLogic_not_above_mb (cfg : TradingConfig) (a : Adapter)
    (s : EngineState) (h : s.current_state ≠ .ABOVE_MB_WAITING) :
    (processTradingLogic cfg a s).1.current_state ≠ .ABOVE_MB_WAITING := by
  simp only [processTradingLogic]
  exact dispatchState_not_above_mb cfg a _ _
    (by rwa [checkBollBreakthrough_current_state]) rfl

theorem runBars_not_above_mb (cfg : TradingConfig) :
    ∀ (steps : List (Adapter × BarData)) (s : EngineState),
      s.current_state ≠ .ABOVE_MB_WAITING →
      (runBars cfg steps s).current_state ≠ .ABOVE_MB_WAITING := by
  intro steps
  induction steps with
  | nil => intro s h; exact h
  | cons ab tl ih =>
    intro s h
    simp only [runBars, List.foldl_cons]
    exact ih _ (processTradingLogic_not_above_mb cfg ab.1 _ (by simpa using h))

/-- C10: state S7 (`ABOVE_MB_WAITING`) is unreachable.  From any state the
engine can hold at startup (`WAITING`, `HOLDING_LONG`, `HOLDING_SHORT`), no
sequence of closed-bar evaluations — whatever market data and adapter
responses each bar sees — ever sets `current_state` to `ABOVE_MB_WAITING`;
and every startup path (`check_startup_position`, whatever the position
query returns) lands in one of those three states. -/
theorem claim_above_mb_waiting_unreachable :
    (∀ (cfg : TradingConfig) (steps : List (Adapter × BarData)) (s : EngineState),
       (s.current_state = .WAITING ∨ s.current_state = .HOLDING_LONG ∨
        s.current_state = .HOLDING_SHORT) →
       (runBars cfg steps s).current_state ≠ .ABOVE_MB_WAITING)
  ∧ (∀ (q : Except PyErr (Option PositionData)) (s0 : EngineState),
       (checkStartupPosition q s0).current_state = .WAITING ∨
       (checkStartupPosition q s0).current_state = .HOLDING_LONG ∨
       (checkStartupPosition q s0).current_state = .HOLDING_SHORT) := by
  constructor
  · intro cfg steps s h
    apply runBars_not_above_mb
    rcases h with h | h | h <;> simp [h]
  · intro q s0
    unfold checkStartupPosition
    rcases q with e | q'
    · exact Or.inl rfl
    · rcases q' with _ | p
      · exact Or.inl rfl
      · dsimp only
        by_cases h1 : p.position_amt ≠ 0
        · rw [if_pos h1]
          by_cases h2 : p.position_amt > 0
          · rw [if_pos h2]
            exact Or.inr (Or.inl rfl)
          · rw [if_neg h2]
            have h3 : p.position_amt < 0 :=
              lt_of_le_of_ne (not_lt.mp h2) h1
            rw [if_pos h3]
            exact Or.inr (Or.inr rfl)
        · rw [if_neg h1]
          exact Or.inl rfl

/-- Witness for C10: one closed bar processed from the fresh-start state
leaves the engine away from `ABOVE_MB_WAITING`. -/
theorem claim_above_mb_waiting_unreachable_witness :
    (runBars defaultConfig [(missingMethodsAdapter, ⟨99, 100, 90, 80⟩)]
        initialEngineState).current_state ≠ .ABOVE_MB_WAITING :=
  claim_above_mb_waiting_unreachable.1 defaultConfig
    [(missingMethodsAdapter, ⟨99, 100, 90, 80⟩)] initialEngineState (Or.inl rfl)

/-- C5: strict-cross semantics.  With ordered bands (`dn ≤ mb ≤ up`), a
closed bar whose close exactly equals one of the band values compared in the
current state's guards fires no transition: the trading state, position side,
size and entry price are unchanged and no trade is executed (in particular
`c = up` from S0 leaves the engine in S0, see the witness). -/
theorem claim_equality_no_transition (cfg : TradingConfig) (a : Adapter)
    (s : EngineState) (hdm : s.boll_dn ≤ s.boll_mb) (hmu : s.boll_mb ≤ s.boll_up)
    (hmem : s.last_close_price ∈
      guardBands s.current_state s.boll_up s.boll_mb s.boll_dn) :
    (processTradingLogic cfg a s).1.current_state = s.current_state
  ∧ (processTradingLogic cfg a s).2 = []
  ∧ (processTradingLogic cfg a s).1.position_side = s.position_side
  ∧ (processTradingLogic cfg a s).1.position_size = s.position_size
  ∧ (processTradingLogic cfg a s).1.entry_price = s.entry_price := by
  simp only [processTradingLogic]
  rw [checkBollBreakthrough_current_state]
  rcases hst : s.current_state with _ | _ | _ | _ | _ | _ | _ | _
  · -- WAITING: c = up, guard c > up cannot fire
    rw [hst] at hmem
    simp only [guardBands, List.mem_singleton] at hmem
    unfold dispatchState
    dsimp only
    split_ifs with h1
    · exfalso
      simp only [checkBollBreakthrough_last_close_price, checkBollBreakthrough_boll_up,
        checkBollBreakthrough_boll_mb, checkBollBreakthrough_boll_dn] at h1
      linarith
    · simp [hst]
  · -- BREAKTHROUGH_UP_WAITING: c = up, guard c < up cannot fire
    rw [hst] at hmem
    simp only [guardBands, List.mem_singleton] at hmem
    unfold dispatchState
    dsimp only
    split_ifs with h1
    · exfalso
      simp only [checkBollBreakthrough_last_close_price, checkBollBreakthrough_boll_up,
        checkBollBreakthrough_boll_mb, checkBollBreakthrough_boll_dn] at h1
      linarith
    · simp [hst]
  · -- HOLDING_SHORT: c = up or c = mb; neither c > up nor c < mb
    rw [hst] at hmem
    simp only [guardBands, List.mem_cons, List.mem_singleton,
      List.not_mem_nil, or_false] at hmem
    unfold dispatchState
    dsimp only
    split_ifs with h1 h2
    · exfalso
      simp only [checkBollBreakthrough_last_close_price, checkBollBreakthrough_boll_up,
        checkBollBreakthrough_boll_mb, checkBollBreakthrough_boll_dn] at h1
      rcases hmem with h | h <;> linarith
    · exfalso
      simp only [checkBollBreakthrough_last_close_price, checkBollBreakthrough_boll_up,
        checkBollBreakthrough_boll_mb, checkBollBreakthrough_boll_dn] at h2
      rcases hmem with h | h <;> linarith
    · simp [hst]
  · -- BREAKTHROUGH_UP_AGAIN_WAITING: c = up, guard c < up cannot fire
    rw [hst] at hmem
    simp only [guardBands, List.mem_singleton] at hmem
    unfold dispatchState
    dsimp only
    split_ifs with h1
    · exfalso
      simp only [checkBollBreakthrough_last_close_price, checkBollBreakthrough_boll_up,
        checkBollBreakthrough_boll_mb, checkBollBreakthrough_boll_dn] at h1
      linarith
    · simp [hst]
  · -- BELOW_MB_WAITING: c = mb or c = dn; neither c > mb nor c < dn
    rw [hst] at hmem
    simp only [guardBands, List.mem_cons, List.mem_singleton,
      List.not_mem_nil, or_false] at hmem
    unfold dispatchState
    dsimp only
    split_ifs with h1 h2
    · exfalso
      simp only [checkBollBreakthrough_last_close_price, checkBollBreakthrough_boll_up,
        checkBollBreakthrough_boll_mb, checkBollBreakthrough_boll_dn] at h1
      rcases hmem with h | h <;> linarith
    · exfalso
      simp only [checkBollBreakthrough_last_close_price, checkBollBreakthrough_boll_up,
        checkBollBreakthrough_boll_mb, checkBollBreakthrough_boll_dn] at h2
      rcases hmem with h | h <;> linarith
    · simp [hst]
  · -- HOLDING_LONG: c = mb or c = up; neither c < mb nor c > up
    rw [hst] at hmem
    simp only [guardBands, List.mem_cons, List.mem_singleton,
      List.not_mem_nil, or_false] at hmem
    unfold dispatchState
    dsimp only
    split_ifs with h1 h2
    · exfalso
      simp only [checkBollBreakthrough_last_close_price, checkBollBreakthrough_boll_up,
        checkBollBreakthrough_boll_mb, checkBollBreakthrough_boll_dn] at h1
      rcases hmem with h | h <;> linarith
    · exfalso
      simp only [checkBollBreakthrough_last_close_price, checkBollBreakthrough_boll_up,
        checkBollBreakthrough_boll_mb, checkBollBreakthrough_boll_dn] at h2
      rcases hmem with h | h <;> linarith
    · simp [hst]
  · -- BELOW_DN_WAITING: c = dn, guard c > dn cannot fire
    rw [hst] at hmem
    simp only [guardBands, List.mem_singleton] at hmem
    unfold dispatchState
    dsimp only
    split_ifs with h1
    · exfalso
      simp only [checkBollBreakthrough_last_close_price, checkBollBreakthrough_boll_up,
        checkBollBreakthrough_boll_mb, checkBollBreakthrough_boll_dn] at h1
      linarith
    · simp [hst]
  · -- ABOVE_MB_WAITING: c = up or c = mb; neither c > up nor c < mb
    rw [hst] at hmem
    simp only [guardBands, List.mem_cons, List.mem_singleton,
      List.not_mem_nil, or_false] at hmem
    unfold dispatchState
    dsimp only
    split_ifs with h1 h2
    · exfalso
      simp only [checkBollBreakthrough_last_close_price, checkBollBreakthrough_boll_up,
        checkBollBreakthrough_boll_mb, checkBollBreakthrough_boll_dn] at h1
      rcases hmem with h | h <;> linarith
    · exfalso
      simp only [checkBollBreakthrough_last_close_price, checkBollBreakthrough_boll_up,
        checkBollBreakthrough_boll_mb, checkBollBreakthrough_boll_dn] at h2
      rcases hmem with h | h <;> linarith
    · simp [hst]

/-- Witness for C5: from S0 (`WAITING`) with bands `up = 100, mb = 90,
dn = 80` and a bar closing exactly at `up`, no transition fires and no trade
is executed. -/
theorem claim_equality_no_transition_witness :
    ((80:ℚ) ≤ 90 ∧ (90:ℚ) ≤ 100)
  ∧ (processTradingLogic defaultConfig missingMethodsAdapter
       { initialEngineState with
           last_close_price := 100
           boll_up := 100
           boll_mb := 90
           boll_dn := 80 }).1.current_state = .WAITING
  ∧ (processTradingLogic defaultConfig missingMethodsAdapter
       { initialEngineState with
           last_close_price := 100
           boll_up := 100
           boll_mb := 90
           boll_dn := 80 }).2 = [] := by
  have h := claim_equality_no_transition defaultConfig missingMethodsAdapter
    { initialEngineState with
        last_close_price := 100
        boll_up := 100
        boll_mb := 90
        boll_dn := 80 }
    (by norm_num [initialEngineState]) (by norm_num [initialEngineState])
    (by simp [guardBands, initialEngineState])
  exact ⟨⟨by norm_num, by norm_num⟩, h.1, h.2.1⟩

/-- C6: in S6 (`BELOW_DN_WAITING`), a closed bar with `close > dn` closes
any open position as a take-profit (`close_short_position` on the reverse
path from a short, `close_long_position` from a long), then opens a long
sized by the balance formula, and ends in S5 (`HOLDING_LONG`); when no
position is open (venue reports none and the engine tracks `NONE`), the
close leg is skipped and the transition simply opens a long.  Adapter
responses are hypothesised successful, per the abstract adapter contract of
spec section 4.4. -/
theorem claim_s6_reverse_path (cfg : TradingConfig) (a : Adapter) (s : EngineState)
    (p : PositionData) (o1 o2 : OrderResult) (bal : List AssetBalance)
    (hstate : s.current_state = .BELOW_DN_WAITING)
    (hc : s.last_close_price > s.boll_dn)
    (hbal : a.get_futures_account_balance = .ok bal)
    (hbne : bal ≠ [])
    (husdt : 0 < usdtBalance bal)
    (hopen : a.open_long_position = .ok o2)
    (hfrac : 0 < cfg.position_fraction) (hlev : 0 < cfg.leverage)
    (hprice : 0 < s.last_close_price) :
    (s.position_side = .SHORT → a.get_position_info = .ok (some p) →
       a.close_short_position = .ok o1 →
       (processTradingLogic cfg a s).2 =
         [⟨.BUY, .takeProfit, .closeShort, abs p.position_amt,
           s.last_close_price, o1.orderId⟩,
          ⟨.BUY, .openPos, .openLong,
           usdtBalance bal * cfg.position_fraction * cfg.leverage / s.last_close_price,
           s.last_close_price, o2.orderId⟩] ∧
       (processTradingLogic cfg a s).1.current_state = .HOLDING_LONG ∧
       (processTradingLogic cfg a s).1.position_side = .LONG)
  ∧ (s.position_side = .LONG → a.get_position_info = .ok (some p) →
       a.close_long_position = .ok o1 →
       (processTradingLogic cfg a s).2 =
         [⟨.BUY, .takeProfit, .closeLong, abs p.position_amt,
           s.last_close_price, o1.orderId⟩,
          ⟨.BUY, .openPos, .openLong,
           usdtBalance bal * cfg.position_fraction * cfg.leverage / s.last_close_price,
           s.last_close_price, o2.orderId⟩] ∧
       (processTradingLogic cfg a s).1.current_state = .HOLDING_LONG ∧
       (processTradingLogic cfg a s).1.position_side = .LONG)
  ∧ (s.position_side = .NONE → a.get_position_info = .ok none →
       (processTradingLogic cfg a s).2 =
         [⟨.BUY, .openPos, .openLong,
           usdtBalance bal * cfg.position_fraction * cfg.leverage / s.last_close_price,
           s.last_close_price, o2.orderId⟩] ∧
       (processTradingLogic cfg a s).1.current_state = .HOLDING_LONG ∧
       (processTradingLogic cfg a s).1.position_side = .LONG) := by
  have hcsps : calculate_safe_position_size cfg a s.last_close_price
      = usdtBalance bal * cfg.position_fraction * cfg.leverage / s.last_close_price :=
    csps_value cfg a bal hbal hbne husdt _
  have hqpos : 0 < calculate_safe_position_size cfg a s.last_close_price := by
    rw [hcsps]
    exact div_pos (mul_pos (mul_pos husdt hfrac) hlev) hprice
  refine ⟨?_, ?_, ?_⟩
  · intro hside hpi hclose
    simp only [processTradingLogic]
    rw [checkBollBreakthrough_current_state, hstate]
    unfold dispatchState
    dsimp only
    rw [if_pos (by simp only [checkBollBreakthrough_last_close_price,
          checkBollBreakthrough_boll_dn]; exact hc)]
    rw [executeTrade_close_short cfg a _ .BUY .takeProfit (by decide) p o1 hpi
          (by simp [hside]) hclose]
    rw [executeTrade_openLong_ok cfg a _ o2 hopen
          (by simp only [addLog_last_close_price,
                checkBollBreakthrough_last_close_price]
              exact hqpos)]
    simp [hcsps]
  · intro hside hpi hclose
    simp only [processTradingLogic]
    rw [checkBollBreakthrough_current_state, hstate]
    unfold dispatchState
    dsimp only
    rw [if_pos (by simp only [checkBollBreakthrough_last_close_price,
          checkBollBreakthrough_boll_dn]; exact hc)]
    rw [executeTrade_close_long cfg a _ .BUY .takeProfit (by decide) p o1 hpi
          (by simp [hside]) hclose]
    rw [executeTrade_openLong_ok cfg a _ o2 hopen
          (by simp only [addLog_last_close_price,
                checkBollBreakthrough_last_close_price]
              exact hqpos)]
    simp [hcsps]
  · intro hside hpi
    simp only [processTradingLogic]
    rw [checkBollBreakthrough_current_state, hstate]
    unfold dispatchState
    dsimp only
    rw [if_pos (by simp only [checkBollBreakthrough_last_close_price,
          checkBollBreakthrough_boll_dn]; exact hc)]
    rw [executeTrade_close_no_position cfg a _ .BUY .takeProfit (by decide) hpi]
    rw [executeTrade_openLong_ok cfg a _ o2 hopen
          (by simp only [addLog_last_close_price,
                checkBollBreakthrough_last_close_price]
              exact hqpos)]
    simp [hcsps]

/-- Witness for C6: from `engineStateAtS6` with `adapterS6`, the handler
emits the take-profit close of the short (quantity 2 at price 85, order 6)
followed by the long open (quantity `1000 · 0.7 · 10 / 85 = 1400/17` at 85,
order 7) and ends in `HOLDING_LONG` with side `LONG`. -/
theorem claim_s6_reverse_path_witness :
    (processTradingLogic defaultConfig adapterS6 engineStateAtS6).2
      = [⟨.BUY, .takeProfit, .closeShort, 2, 85, 6⟩,
         ⟨.BUY, .openPos, .openLong, 1400/17, 85, 7⟩]
  ∧ (processTradingLogic defaultConfig adapterS6 engineStateAtS6).1.current_state
      = .HOLDING_LONG
  ∧ (processTradingLogic defaultConfig adapterS6 engineStateAtS6).1.position_side
      = .LONG := by
  have h := (claim_s6_reverse_path defaultConfig adapterS6 engineStateAtS6
      ⟨-2, 95, 0⟩ ⟨6⟩ ⟨7⟩ [⟨"USDT", 1000⟩] rfl
      (by norm_num [engineStateAtS6, initialEngineState]) rfl (by simp)
      (by norm_num [usdtBalance]) rfl (by norm_num [defaultConfig])
      (by norm_num [defaultConfig])
      (by norm_num [engineStateAtS6, initialEngineState])).1 rfl rfl rfl
  refine ⟨?_, h.2.1, h.2.2⟩
  rw [h.1]
  norm_num [usdtBalance, defaultConfig, engineStateAtS6, initialEngineState]

theorem ingestKlines_cons (x : KlineKey × KlineRowData)
    (l : List (KlineKey × KlineRowData)) (t : KlinesTable) :
    ingestKlines (x :: l) t = ingestKlines l (upsertKline x.1 x.2 t) := rfl

theorem lookupKline_ext_ingest (l : List (KlineKey × KlineRowData)) :
    ∀ {t1 t2 : KlinesTable}, (∀ k, lookupKline k t1 = lookupKline k t2) →
    ∀ k, lookupKline k (ingestKlines l t1) = lookupKline k (ingestKlines l t2) := by
  induction l with
  | nil => intro t1 t2 h k; exact h k
  | cons x tl ih =>
    intro t1 t2 h k
    rw [ingestKlines_cons, ingestKlines_cons]
    apply ih
    intro k'
    by_cases hk : k' = x.1
    · subst hk
      rw [lookupKline_upsert_self, lookupKline_upsert_self]
    · rw [lookupKline_upsert_other hk, lookupKline_upsert_other hk]
      exact h k'

theorem lookupKline_upsert_comm {x y : KlineKey × KlineRowData}
    (hxy : x.1 = y.1 → x.2 = y.2) (t : KlinesTable) (k : KlineKey) :
    lookupKline k (upsertKline x.1 x.2 (upsertKline y.1 y.2 t))
      = lookupKline k (upsertKline y.1 y.2 (upsertKline x.1 x.2 t)) := by
  by_cases hx : k = x.1
  · by_cases hy : k = y.1
    · have hr : x.2 = y.2 := hxy (hx.symm.trans hy)
      calc lookupKline k (upsertKline x.1 x.2 (upsertKline y.1 y.2 t))
          = some x.2 := by rw [hx]; exact lookupKline_upsert_self _ _ _
        _ = some y.2 := by rw [hr]
        _ = lookupKline k (upsertKline y.1 y.2 (upsertKline x.1 x.2 t)) := by
            rw [hy]; exact (lookupKline_upsert_self _ _ _).symm
    · have hxy2 : ¬x.1 = y.1 := fun he => hy (hx.trans he)
      rw [hx, lookupKline_upsert_self,
          lookupKline_upsert_other hxy2, lookupKline_upsert_self]
  · by_cases hy : k = y.1
    · rw [lookupKline_upsert_other hx, hy, lookupKline_upsert_self,
          lookupKline_upsert_self]
    · rw [lookupKline_upsert_other hx, lookupKline_upsert_other hy,
          lookupKline_upsert_other hy, lookupKline_upsert_other hx]

theorem lookupKline_ingest_perm : ∀ {l1 l2 : List (KlineKey × KlineRowData)},
    l1.Perm l2 → keyConsistent l1 →
    ∀ (t : KlinesTable) (k : KlineKey),
      lookupKline k (ingestKlines l1 t) = lookupKline k (ingestKlines l2 t) := by
  intro l1 l2 hp
  induction hp with
  | nil => intro _ t k; rfl
  | cons x hp' ih =>
    intro hc t k
    rw [ingestKlines_cons, ingestKlines_cons]
    exact ih (fun p hp q hq he =>
      hc p (List.mem_cons_of_mem x hp) q (List.mem_cons_of_mem x hq) he)
      (upsertKline x.1 x.2 t) k
  | swap x y l =>
    intro hc t k
    rw [ingestKlines_cons, ingestKlines_cons, ingestKlines_cons, ingestKlines_cons]
    apply lookupKline_ext_ingest
    intro k'
    exact lookupKline_upsert_comm
      (fun he => hc x (by simp) y (by simp) he) t k'
  | trans hp1 hp2 ih1 ih2 =>
    intro hc t k
    rw [ih1 hc t k]
    exact ih2 (fun p hp q hq he =>
      hc p (hp1.mem_iff.mpr hp) q (hp1.mem_iff.mpr hq) he) t k

theorem tableKeys_upsert_nodup {t : KlinesTable} (h : (tableKeys t).Nodup)
    (k : KlineKey) (r : KlineRowData) : (tableKeys (upsertKline k r t)).Nodup := by
  unfold tableKeys upsertKline
  rw [List.map_append]
  apply List.Nodup.append
  · exact ((List.filter_sublist t).map Prod.fst).nodup h
  · simp
  · intro a ha hb
    simp only [List.mem_map, List.mem_filter] at ha
    obtain ⟨p, ⟨_, hpk⟩, rfl⟩ := ha
    simp only [List.map_cons, List.map_nil, List.mem_singleton] at hb
    have hne : p.1 ≠ k := by simpa using hpk
    exact hne hb

theorem tableKeys_ingest_nodup : ∀ (l : List (KlineKey × KlineRowData))
    (t : KlinesTable), (tableKeys t).Nodup →
    (tableKeys (ingestKlines l t)).Nodup := by
  intro l
  induction l with
  | nil => intro t h; exact h
  | cons x tl ih =>
    intro t h
    rw [ingestKlines_cons]
    exact ih _ (tableKeys_upsert_nodup h _ _)

/-- C8 counterexample: the claim fails for multisets containing two rows
with the same `(symbol, interval, open_time)` key but different column
values — `INSERT OR REPLACE` is last-write-wins, so the two delivery orders
leave different tables. -/
theorem claim_ingest_order_counterexample :
    (([(("B", "15m", 0), rowCloseSeven), (("B", "15m", 0), rowCloseNine)] :
        List (KlineKey × KlineRowData)).Perm
      [(("B", "15m", 0), rowCloseNine), (("B", "15m", 0), rowCloseSeven)])
  ∧ lookupKline ("B", "15m", 0)
      (ingestKlines [(("B", "15m", 0), rowCloseSeven),
                     (("B", "15m", 0), rowCloseNine)] [])
      = some rowCloseNine
  ∧ lookupKline ("B", "15m", 0)
      (ingestKlines [(("B", "15m", 0), rowCloseNine),
                     (("B", "15m", 0), rowCloseSeven)] [])
      = some rowCloseSeven
  ∧ rowCloseNine ≠ rowCloseSeven := by
  refine ⟨List.Perm.swap _ _ _, ?_, ?_, ?_⟩
  · exact lookupKline_upsert_self _ _ _
  · exact lookupKline_upsert_self _ _ _
  · intro h
    have : (9 : ℚ) = 7 := congrArg KlineRowData.close_price h
    norm_num at this

/-- C8 amended: kline ingestion is idempotent on the key
`(symbol, interval, open_time)` for batches in which any two rows sharing a
key are identical: for every such multiset and every permutation of its
delivery order (duplicate redeliveries included as repeated elements), the
final contents of the `klines` table are identical (same row under every
key), and each key appears at most once in the table. -/
theorem claim_ingest_perm_amended :
    (∀ (l1 l2 : List (KlineKey × KlineRowData)) (t : KlinesTable) (k : KlineKey),
       l1.Perm l2 → keyConsistent l1 →
       lookupKline k (ingestKlines l1 t) = lookupKline k (ingestKlines l2 t))
  ∧ (∀ l : List (KlineKey × KlineRowData), (tableKeys (ingestKlines l [])).Nodup) := by
  constructor
  · intro l1 l2 t k hp hc
    exact lookupKline_ingest_perm hp hc t k
  · intro l
    exact tableKeys_ingest_nodup l [] (by simp [tableKeys])

/-- Witness for C8 (amended): two rows under distinct keys delivered in
either order produce the same table contents, with no duplicate key. -/
theorem claim_ingest_perm_amended_witness :
    (([(("B", "15m", 0), rowCloseSeven), (("B", "1m", 1), rowCloseNine)] :
        List (KlineKey × KlineRowData)).Perm
      [(("B", "1m", 1), rowCloseNine), (("B", "15m", 0), rowCloseSeven)])
  ∧ keyConsistent [(("B", "15m", 0), rowCloseSeven), (("B", "1m", 1), rowCloseNine)]
  ∧ lookupKline ("B", "15m", 0)
      (ingestKlines [(("B", "15m", 0), rowCloseSeven),
                     (("B", "1m", 1), rowCloseNine)] [])
      = lookupKline ("B", "15m", 0)
          (ingestKlines [(("B", "1m", 1), rowCloseNine),
                         (("B", "15m", 0), rowCloseSeven)] [])
  ∧ (tableKeys (ingestKlines [(("B", "15m", 0), rowCloseSeven),
                              (("B", "1m", 1), rowCloseNine)] [])).Nodup := by
  have hc : keyConsistent
      [(("B", "15m", 0), rowCloseSeven), (("B", "1m", 1), rowCloseNine)] := by
    intro p hp q hq he
    rcases List.mem_cons.mp hp with rfl | hp' <;>
      rcases List.mem_cons.mp hq with rfl | hq'
    · rfl
    · rcases List.mem_singleton.mp hq'
      exfalso
      simp at he
    · rcases List.mem_singleton.mp hp'
      exfalso
      simp at he
    · rcases List.mem_singleton.mp hp'
      rcases List.mem_singleton.mp hq'
      rfl
  exact ⟨List.Perm.swap _ _ _, hc,
    claim_ingest_perm_amended.1 _ _ [] _ (List.Perm.swap _ _ _) hc, claim_ingest_perm_amended.2 _⟩

theorem bollEntry_undefined (closes : List ℝ) (period : ℕ) (std_dev : ℝ)
    (i : ℕ) (h : i < period - 1) :
    bollEntry closes period std_dev i = (none, none, none) := by
  unfold bollEntry
  rw [if_pos h]

theorem bollEntry_defined (closes : List ℝ) (period : ℕ) (std_dev : ℝ)
    (i : ℕ) (h : ¬i < period - 1) :
    bollEntry closes period std_dev i =
      (some (specMean ((closes.drop (i + 1 - period)).take period) period
             + std_dev * specSigma ((closes.drop (i + 1 - period)).take period) period),
       some (specMean ((closes.drop (i + 1 - period)).take period) period),
       some (specMean ((closes.drop (i + 1 - period)).take period) period
             - std_dev * specSigma ((closes.drop (i + 1 - period)).take period) period)) := by
  unfold bollEntry specSigma specMean
  rw [if_neg h]

/-- C4: for an ordered sequence of `N ≥ P ≥ 1` klines, `calculate_boll`
returns three arrays of length `N`; entries below index `P−1` are `None`;
at every index `i ≥ P−1` the middle band is the simple mean of
`closes[i−P+1..i]`, and the upper/lower bands are `mean ± K·σ` with σ the
population standard deviation of the same window (variance divided by `P`).
The embedding is a pure function of the klines: the per-row database write
in the source swallows its own errors and does not affect the returned
value. -/
theorem claim_boll_indicator_spec (klines : List ClientKline) (period : ℕ) (std_dev : ℝ)
    (hp : 1 ≤ period) (hN : period ≤ klines.length) :
    (calculate_boll klines period std_dev).upper.length = klines.length
  ∧ (calculate_boll klines period std_dev).middle.length = klines.length
  ∧ (calculate_boll klines period std_dev).lower.length = klines.length
  ∧ (∀ i, i < period - 1 →
      (calculate_boll klines period std_dev).upper[i]? = some none ∧
      (calculate_boll klines period std_dev).middle[i]? = some none ∧
      (calculate_boll klines period std_dev).lower[i]? = some none)
  ∧ (∀ i, period - 1 ≤ i → i < klines.length →
      (calculate_boll klines period std_dev).middle[i]? =
        some (some (specMean (specWindow (klines.map ClientKline.close) period i) period)) ∧
      (calculate_boll klines period std_dev).upper[i]? =
        some (some (specMean (specWindow (klines.map ClientKline.close) period i) period
          + std_dev * specSigma (specWindow (klines.map ClientKline.close) period i) period)) ∧
      (calculate_boll klines period std_dev).lower[i]? =
        some (some (specMean (specWindow (klines.map ClientKline.close) period i) period
          - std_dev * specSigma (specWindow (klines.map ClientKline.close) period i) period))) := by
  have hnl : ¬klines.length < period := not_lt.mpr hN
  have hlen : (klines.map ClientKline.close).length = klines.length :=
    List.length_map _ _
  unfold calculate_boll
  rw [if_neg hnl]
  dsimp only
  refine ⟨by simp, by simp, by simp, ?_, ?_⟩
  · intro i hi
    have hin : i < klines.length := lt_of_lt_of_le (lt_of_lt_of_le hi
      (Nat.sub_le period 1)) hN
    refine ⟨?_, ?_, ?_⟩ <;>
      simp only [List.getElem?_map, List.getElem?_range, hlen, hin, if_pos,
        bollEntry_undefined _ _ _ _ hi, Option.map_some']
  · intro i h1 h2
    have hnlt : ¬i < period - 1 := not_lt.mpr h1
    have hw : specWindow (klines.map ClientKline.close) period i
        = ((klines.map ClientKline.close).drop (i + 1 - period)).take period := by
      unfold specWindow
      rw [List.drop_take]
      congr 1
      omega
    refine ⟨?_, ?_, ?_⟩ <;>
      simp only [List.getElem?_map, List.getElem?_range, hlen, h2, if_pos,
        bollEntry_defined _ _ _ _ hnlt, hw, Option.map_some']

/-- Witness for C4: one kline closing at 2 with `P = 1`, `K = 3`: one-entry
bands with `middle = upper = 2` (the window variance is 0). -/
theorem claim_boll_indicator_spec_witness :
    (1 : ℕ) ≤ 1 ∧ (1 : ℕ) ≤ ([⟨0, 2⟩] : List ClientKline).length
  ∧ (calculate_boll [⟨0, 2⟩] 1 3).middle.length = 1
  ∧ (calculate_boll [⟨0, 2⟩] 1 3).middle[0]? = some (some 2)
  ∧ (calculate_boll [⟨0, 2⟩] 1 3).upper[0]? = some (some 2) := by
  have h := claim_boll_indicator_spec [⟨0, 2⟩] 1 3 (le_refl 1) (by simp)
  refine ⟨le_refl 1, by simp, ?_, ?_, ?_⟩
  · simpa using h.2.1
  · have h5 := (h.2.2.2.2 0 (by norm_num) (by norm_num)).1
    rw [h5]
    norm_num [specWindow, specMean]
  · have h6 := (h.2.2.2.2 0 (by norm_num) (by norm_num)).2.1
    rw [h6]
    norm_num [specWindow, specMean, specSigma, Real.sqrt_zero]

end BollPrice
